import Mathlib

/-!
Verification of the SAP AI Core provider adapter
(`src/api/providers/sapaicore.ts`).

The adapter is embedded shallowly: network effects (`await axios...`) are
made explicit by having each operation return, besides its result and the
updated handler state, the list of network calls it issued, in order.
Machine-level concerns (HTTP headers, URLs, JSON wire encoding) that no
claim inspects are recorded in comments where they occur in the source but
not modelled.
-/

namespace SapAiCore

/-- A network call issued by the adapter: the OAuth token exchange
(`axios.post(tokenUrl, ...)`), the deployment listing
(`axios.get(baseUrl + "/lm/deployments?...")`), or the streaming inference
POST against a resolved deployment id. -/
inductive NetCall where
  | auth : NetCall
  | listDeployments : NetCall
  | inference (deploymentId : String) : NetCall
deriving DecidableEq, Repr

/-- The token record cached by the handler (interface `Token` in the
source).  The source misspells the expiry field as `exipres_at`; the name
is kept.  Only the fields the adapter reads are modelled
(`access_token`, `expires_in`, `exipres_at`). -/
structure Token where
  access_token : String
  expires_in : Nat
  exipres_at : Nat
deriving DecidableEq, Repr

/-- A resolved deployment (interface `Deployment` in the source):
an opaque id and a `name:version` label. -/
structure Deployment where
  id : String
  name : String
deriving DecidableEq, Repr

/-- The backend model details of a raw listing entry
(`deployment.details?.resources?.backend_details?.model`).  `name` and
`version` are `Option String`: `none` models a missing (`undefined`)
field, and, following JavaScript truthiness, the empty string is also
treated as absent by the source's `!model?.name` test. -/
structure RawModel where
  name : Option String
  version : Option String
deriving DecidableEq, Repr

/-- One entry of the deployment-listing response (`response.data.resources`
element).  The `model` field stands for the whole optional chain
`details?.resources?.backend_details?.model`. -/
structure RawDeployment where
  id : String
  targetStatus : String
  model : Option RawModel
deriving DecidableEq, Repr

/-- The configuration options the adapter reads
(`ApiHandlerOptions` fields used by this file). -/
structure Options where
  sapAiCoreClientId : Option String
  sapAiCoreClientSecret : Option String
  sapAiCoreTokenUrl : Option String
  sapAiCoreBaseUrl : Option String
  sapAiResourceGroup : Option String
  apiModelId : Option String
deriving DecidableEq, Repr

/-- The mutable instance state of the handler: the cached token and the
cached deployment list (`this.token`, `this.deployments`). -/
structure HState where
  token : Option Token
  deployments : Option (List Deployment)
deriving DecidableEq, Repr

/-- The environment a run observes: the current wall clock (`Date.now()`),
the body the token endpoint would return, and the `resources` array the
deployment-listing endpoint would return.  Successful transport is
assumed; the claims under verification do not concern transport
failures. -/
structure Env where
  now : Nat
  freshToken : Token
  listing : List RawDeployment
deriving DecidableEq, Repr

/-- Models `authenticate()`: POSTs the client-credentials payload to the token
URL and stamps the response with `exipres_at = Date.now() +
expires_in * 1000`.  Returns the stamped token and the network trace. -/
def authenticate (env : Env) : Token × List NetCall :=
  ({ env.freshToken with exipres_at := env.now + env.freshToken.expires_in * 1000 },
   [NetCall.auth])

/-- Models `getToken()`: returns the cached token's `access_token` unless no
token is cached or `this.token.exipres_at < Date.now()`, in which case it
authenticates and caches the fresh token. -/
def getToken (env : Env) (s : HState) : String × HState × List NetCall :=
  match s.token with
  | some t =>
    if t.exipres_at < env.now then
      let r := authenticate env
      (r.1.access_token, { s with token := some r.1 }, r.2)
    else
      (t.access_token, s, [])
  | none =>
    let r := authenticate env
    (r.1.access_token, { s with token := some r.1 }, r.2)

/-- Character-wise lowercasing; models JavaScript's
`String.prototype.toLowerCase()` (the two agree on the ASCII labels this
adapter compares).  Defined over the character list so that proofs and
witnesses evaluate inside the kernel. -/
def jsToLower (s : String) : String :=
  String.mk (s.data.map Char.toLower)

/-- The characters before the first occurrence of `sep` (the whole list
when `sep` does not occur). -/
def charsBefore (sep : Char) : List Char → List Char
  | [] => []
  | c :: cs => if c = sep then [] else c :: charsBefore sep cs

/-- The portion of a string before the first `:`; models
`s.split(":")[0]` (the whole string when there is no `:`). -/
def baseName (s : String) : String :=
  String.mk (charsBefore ':' s.data)

/-- The matching predicate of `getDeploymentForModel` /
`hasDeploymentForModel`: case-insensitive equality of the base names
(before the first `:`) of the deployment label and the model id. -/
def matchesModel (d : Deployment) (modelId : String) : Bool :=
  jsToLower (baseName d.name) == jsToLower (baseName modelId)

/-- Models `hasDeploymentForModel(modelId)`:
`this.deployments?.some(...) ?? false`. -/
def hasDeploymentForModel (s : HState) (modelId : String) : Bool :=
  match s.deployments with
  | some l => l.any (fun d => matchesModel d modelId)
  | none => false

/-- The per-entry mapping inside `getAiCoreDeployments`: entries whose
backend model details lack a (truthy) name or version map to `null` and
are dropped; survivors carry the label `name:version`.  `filterMap` below
fuses the source's map-to-null step with its trailing
`.filter((d) => d !== null)`. -/
def toDeployment (raw : RawDeployment) : Option Deployment :=
  match raw.model with
  | some m =>
    match m.name, m.version with
    | some n, some v =>
      if n = "" || v = "" then none
      else some { id := raw.id, name := n ++ ":" ++ v }
    | _, _ => none
  | none => none

/-- The pure body of `getAiCoreDeployments` applied to the listing
response's `resources` array: keep `targetStatus === "RUNNING"` entries,
then drop entries without model name/version. -/
def resolveDeployments (resources : List RawDeployment) : List Deployment :=
  (resources.filter (fun d => d.targetStatus == "RUNNING")).filterMap toDeployment

/-- Models `getAiCoreDeployments()`: with an empty-string client secret it
returns the `notconfigured` sentinel without touching the network;
otherwise it fetches a token (possibly authenticating) and GETs the
deployment listing.  The Authorization / AI-Resource-Group headers and the
`$top=10000&$skip=0` query are built in the source but not modelled. -/
def getAiCoreDeployments (env : Env) (opts : Options) (s : HState) :
    List Deployment × HState × List NetCall :=
  if opts.sapAiCoreClientSecret = some "" then
    ([{ id := "notconfigured", name := "ai-core-not-configured" }], s, [])
  else
    let r := getToken env s
    (resolveDeployments env.listing, r.2.1, r.2.2 ++ [NetCall.listDeployments])

/-- Models `getDeploymentForModel(modelId)`: refresh the cached deployment list
when it is absent or has no matching entry, then look the model up by
`matchesModel`; fail with a "no running deployment" error when still
unmatched. -/
def getDeploymentForModel (env : Env) (opts : Options) (s : HState) (modelId : String) :
    Except String String × HState × List NetCall :=
  let refreshed :=
    if s.deployments.isNone || ! hasDeploymentForModel s modelId then
      let r := getAiCoreDeployments env opts s
      ({ r.2.1 with deployments := some r.1 }, r.2.2)
    else (s, [])
  let deps := refreshed.1.deployments.getD []
  let result :=
    match deps.find? (fun d => matchesModel d modelId) with
    | some d => Except.ok d.id
    | none => Except.error ("No running deployment found for model " ++ modelId)
  (result, refreshed.1, refreshed.2)

/-- Modelled from the spec: the shared module `../../shared/api` (not part
of the sources under verification) supplies `ModelInfo`, "a static model
registry mapping logical ids to {max-token limit, …} metadata".  Only the
max-token limit is read by this adapter. -/
structure ModelInfo where
  maxTokens : Nat
deriving DecidableEq, Repr

/-- Modelled from the spec: the shared module `../../shared/api` supplies
`sapAiCoreModels` (the static registry) and `sapAiCoreDefaultModelId`
(one of its keys).  The spec fixes no concrete entries, so the registry
travels as a parameter; theorems that need the default id to be a key
state that as a hypothesis. -/
structure ModelRegistry where
  sapAiCoreModels : List (String × ModelInfo)
  sapAiCoreDefaultModelId : String
deriving DecidableEq, Repr

/-- Key lookup in the registry; models `modelId in sapAiCoreModels` /
`sapAiCoreModels[modelId]`. -/
def lookupModel (registry : List (String × ModelInfo)) (modelId : String) : Option ModelInfo :=
  (registry.find? (fun p => p.1 == modelId)).map (fun p => p.2)

/-- Models `getModel()`: the configured `apiModelId` when it is truthy and a
registry key, the default model otherwise.  Total by construction — no
failure path exists in the source either. -/
def getModel (reg : ModelRegistry) (opts : Options) : String × Option ModelInfo :=
  match opts.apiModelId with
  | some modelId =>
    if modelId ≠ "" then
      match lookupModel reg.sapAiCoreModels modelId with
      | some info => (modelId, some info)
      | none =>
        (reg.sapAiCoreDefaultModelId, lookupModel reg.sapAiCoreModels reg.sapAiCoreDefaultModelId)
    else
      (reg.sapAiCoreDefaultModelId, lookupModel reg.sapAiCoreModels reg.sapAiCoreDefaultModelId)
  | none =>
    (reg.sapAiCoreDefaultModelId, lookupModel reg.sapAiCoreModels reg.sapAiCoreDefaultModelId)

/-- The hardcoded Anthropic model id list of `createMessage`. -/
def anthropicModels : List String :=
  ["anthropic--claude-3.5-sonnet",
   "anthropic--claude-3-sonnet",
   "anthropic--claude-3-haiku",
   "anthropic--claude-3-opus"]

/-- The hardcoded OpenAI model id list of `createMessage`. -/
def openAIModels : List String :=
  ["gpt-4o", "gpt-4", "gpt-4o-mini"]

/-- Models `createMessage(systemPrompt, messages)`, up to the point where the
response stream is handed to a stream parser.  In source order: fetch a
token (network when not cached), resolve the model, resolve its
deployment (possibly listing deployments), then branch on the two
hardcoded model-family lists to build the inference URL and payload —
throwing `Unsupported model: ...` when the id is in neither list — and
finally POST the streaming inference call.  The payload contents
(system prompt, messages, `max_tokens` from the registry metadata,
OpenAI sampling defaults) are built in the source but not inspected by
any claim, so only the call itself is recorded in the trace. -/
def createMessage (env : Env) (opts : Options) (reg : ModelRegistry) (s : HState) :
    Except String Unit × HState × List NetCall :=
  let t := getToken env s
  let model := getModel reg opts
  let d := getDeploymentForModel env opts t.2.1 model.1
  match d.1 with
  | Except.error e => (Except.error e, d.2.1, t.2.2 ++ d.2.2)
  | Except.ok depId =>
    if anthropicModels.contains model.1 then
      (Except.ok (), d.2.1, t.2.2 ++ d.2.2 ++ [NetCall.inference depId])
    else if openAIModels.contains model.1 then
      (Except.ok (), d.2.1, t.2.2 ++ d.2.2 ++ [NetCall.inference depId])
    else
      (Except.error ("Unsupported model: " ++ model.1), d.2.1, t.2.2 ++ d.2.2)

/-- Concrete run data for the unsupported-model claim: the configured
model id `custom-model` is a registry key with a running deployment but
belongs to neither hardcoded family list. -/
def c1Env : Env :=
  ⟨0, ⟨"tk", 60, 0⟩, [⟨"d1", "RUNNING", some ⟨some "custom-model", some "1"⟩⟩]⟩

/-- Options for the unsupported-model run (configured secret, model id
`custom-model`). -/
def c1Opts : Options :=
  ⟨some "cid", some "sek", some "turl", some "burl", none, some "custom-model"⟩

/-- Registry for the unsupported-model run. -/
def c1Reg : ModelRegistry :=
  ⟨[("custom-model", ⟨100⟩)], "custom-model"⟩

/-- A normalized stream event yielded to the host: a usage snapshot or a
text chunk. -/
inductive StreamEvent where
  | usage (inputTokens outputTokens : Nat) : StreamEvent
  | text (text : String) : StreamEvent
deriving DecidableEq, Repr

/-- Splits a character list at every occurrence of `sep`; models
JavaScript's `s.split(sep)` for a one-character separator (adjacent
separators yield empty pieces, as in JavaScript). -/
def splitOnChar (sep : Char) : List Char → List (List Char)
  | [] => [[]]
  | c :: cs =>
    if c = sep then [] :: splitOnChar sep cs
    else
      match splitOnChar sep cs with
      | [] => [[c]]
      | piece :: pieces => (c :: piece) :: pieces

/-- The line list both parsers iterate over:
`chunk.toString().split("\n").filter(Boolean)` for each chunk, in order.
`filter(Boolean)` drops exactly the empty lines. -/
def linesOf (chunks : List String) : List String :=
  (chunks.map
    (fun chunk =>
      ((splitOnChar '\n' chunk.data).map String.mk).filter (fun l => l ≠ ""))).flatten

/-- Models `line.startsWith("data: ")`. -/
def isDataLine (line : String) : Bool :=
  line.data.take 6 == "data: ".data

/-- Models `line.slice(6)`: the payload after the `data: ` marker. -/
def dataPayload (line : String) : String :=
  String.mk (line.data.drop 6)

/-- Models JavaScript's `line.trim()`: whitespace stripped from both
ends. -/
def jsTrim (s : String) : String :=
  String.mk (((s.data.dropWhile Char.isWhitespace).reverse.dropWhile
    Char.isWhitespace).reverse)

/-- A parsed Anthropic-format frame, seen through exactly the fields
`streamCompletion` reads: the `type` discriminator, then
`message.usage.input_tokens` for `message_start`, the content block's
`type`/`text` for `content_block_start` (from `content_block`) and
`content_block_delta` (from `delta`), and the optional
`usage.output_tokens` for `message_delta`.  `other` stands for any
unrecognized `type`, which the source ignores. -/
inductive AFrame where
  | messageStart (input_tokens : Nat) : AFrame
  | contentBlockStart (blockType : String) (text : Option String) : AFrame
  | contentBlockDelta (blockType : String) (text : Option String) : AFrame
  | messageDelta (output_tokens : Option Nat) : AFrame
  | other : AFrame
deriving DecidableEq, Repr

/-- The mutable `usage` record of `streamCompletion`. -/
structure AState where
  input_tokens : Nat
  output_tokens : Nat
deriving DecidableEq, Repr

/-- The per-frame dispatch of `streamCompletion`: `message_start` records
and emits input-token usage, text-bearing content blocks emit their text
(`contentBlock.text || ""`), `message_delta` with a usage object records
and emits output-token usage (with `inputTokens: 0`). -/
def stepA (st : AState) (f : AFrame) : AState × List StreamEvent :=
  match f with
  | AFrame.messageStart n =>
    ({ st with input_tokens := n }, [StreamEvent.usage n st.output_tokens])
  | AFrame.contentBlockStart blockType txt =>
    if blockType = "text" ∨ blockType = "text_delta" then
      (st, [StreamEvent.text (txt.getD "")])
    else (st, [])
  | AFrame.contentBlockDelta blockType txt =>
    if blockType = "text" ∨ blockType = "text_delta" then
      (st, [StreamEvent.text (txt.getD "")])
    else (st, [])
  | AFrame.messageDelta out? =>
    match out? with
    | some o => ({ st with output_tokens := o }, [StreamEvent.usage 0 o])
    | none => (st, [])
  | AFrame.other => (st, [])

/-- One line of the Anthropic loop: only `data: ` lines are considered;
`JSON.parse` (modelled by the `parse` argument, `none` = malformed JSON)
failures are logged and skipped. -/
def stepLineA (parse : String → Option AFrame) (st : AState) (line : String) :
    AState × List StreamEvent :=
  if isDataLine line then
    match parse (dataPayload line) with
    | some f => stepA st f
    | none => (st, [])
  else (st, [])

/-- The line-consuming loop of `streamCompletion`. -/
def processA (parse : String → Option AFrame) : AState → List String → List StreamEvent
  | _, [] => []
  | st, line :: rest =>
    let r := stepLineA parse st line
    r.2 ++ processA parse r.1 rest

/-- Models `streamCompletion(stream, model)`: the Anthropic-format parser over
the chunk sequence, starting from `usage = {input_tokens: 0,
output_tokens: 0}`. -/
def streamCompletion (parse : String → Option AFrame) (chunks : List String) :
    List StreamEvent :=
  processA parse ⟨0, 0⟩ (linesOf chunks)

/-- The usage object of an OpenAI-format frame, through the fields the
source reads (`prompt_tokens`, `completion_tokens`; `none` = absent). -/
structure GUsage where
  prompt_tokens : Option Nat
  completion_tokens : Option Nat
deriving DecidableEq, Repr

/-- One element of `choices`: `delta.content` (collapsing "no `delta`"
and "no `content`", which the source treats alike) and
`finish_reason`. -/
structure GChoice where
  content : Option String
  finish_reason : Option String
deriving DecidableEq, Repr

/-- A parsed OpenAI-format frame.  An absent `choices` field and an empty
`choices` array are collapsed to `[]`: the source distinguishes them only
by a `TypeError` on `data.choices[0].finish_reason` that its own
per-frame catch swallows after all of the frame's events have already
been yielded, so the emitted events agree. -/
structure GFrame where
  choices : List GChoice
  usage : Option GUsage
deriving DecidableEq, Repr

/-- The mutable `inputTokens`/`outputTokens` counters of
`streamCompletionGPT`.  The source also accumulates a `currentContent`
string it never reads; it is omitted. -/
structure GState where
  inputTokens : Nat
  outputTokens : Nat
deriving DecidableEq, Repr

/-- Models the JavaScript fallback `fresh || prev` on token counts:
`undefined` and `0` are both falsy, so a reported `0` also falls back to
the previous total. -/
def jsOrTok (fresh : Option Nat) (prev : Nat) : Nat :=
  match fresh with
  | some n => if n = 0 then prev else n
  | none => prev

/-- The per-frame dispatch of `streamCompletionGPT`: a text event for a
truthy `choices[0].delta.content`; a usage event (updating the running
totals) whenever `data.usage` is present; a final usage flush when
`choices[0].finish_reason === "stop"` arrives without a usage object. -/
def stepGPT (st : GState) (f : GFrame) : GState × List StreamEvent :=
  let textEvs :=
    match f.choices.head? with
    | some c =>
      match c.content with
      | some str => if str = "" then [] else [StreamEvent.text str]
      | none => []
    | none => []
  match f.usage with
  | some u =>
    let i := jsOrTok u.prompt_tokens st.inputTokens
    let o := jsOrTok u.completion_tokens st.outputTokens
    (⟨i, o⟩, textEvs ++ [StreamEvent.usage i o])
  | none =>
    match f.choices.head? with
    | some c =>
      if c.finish_reason = some "stop" then
        (st, textEvs ++ [StreamEvent.usage st.inputTokens st.outputTokens])
      else (st, textEvs)
    | none => (st, textEvs)

/-- One non-sentinel line of the GPT loop (same `data: ` filtering and
malformed-JSON skipping as the Anthropic loop). -/
def stepLineGPT (parse : String → Option GFrame) (st : GState) (line : String) :
    GState × List StreamEvent :=
  if isDataLine line then
    match parse (dataPayload line) with
    | some f => stepGPT st f
    | none => (st, [])
  else (st, [])

/-- The line-consuming loop of `streamCompletionGPT`: a line whose
trimmed form is the `data: [DONE]` sentinel emits one final usage event
and returns, ending the stream. -/
def processGPT (parse : String → Option GFrame) : GState → List String → List StreamEvent
  | _, [] => []
  | st, line :: rest =>
    if jsTrim line = "data: [DONE]" then
      [StreamEvent.usage st.inputTokens st.outputTokens]
    else
      let r := stepLineGPT parse st line
      r.2 ++ processGPT parse r.1 rest

/-- Models `streamCompletionGPT(stream, model)`: the OpenAI-format parser over
the chunk sequence, starting from zero token totals. -/
def streamCompletionGPT (parse : String → Option GFrame) (chunks : List String) :
    List StreamEvent :=
  processGPT parse ⟨0, 0⟩ (linesOf chunks)

/-- A concrete stand-in for `JSON.parse` on Anthropic wire payloads:
`ms` parses to `message_start` with `input_tokens` 10, `cbd` to a
`content_block_delta` whose delta is `{type: "text_delta", text: "hi"}`,
`md` to `message_delta` with `usage.output_tokens` 3; everything else is
malformed. -/
def demoParseA : String → Option AFrame := fun payload =>
  if payload = "ms" then some (AFrame.messageStart 10)
  else if payload = "cbd" then some (AFrame.contentBlockDelta "text_delta" (some "hi"))
  else if payload = "md" then some (AFrame.messageDelta (some 3))
  else none

/-- A concrete stand-in for `JSON.parse` on OpenAI wire payloads: `g1`
parses to a frame whose first choice has delta content `"hi"` (no usage
object, no finish reason), `g2` likewise with `"yo"`; everything else is
malformed. -/
def demoParseGPT : String → Option GFrame := fun payload =>
  if payload = "g1" then some ⟨[⟨some "hi", none⟩], none⟩
  else if payload = "g2" then some ⟨[⟨some "yo", none⟩], none⟩
  else none

/-- C2: a cached token whose expiry is in the future is returned as-is
with no authentication call; with no cached token, or a cached token whose
expiry has passed, exactly one authentication call is made and the freshly
fetched token is returned and cached. -/
theorem getToken_cache_spec (env : Env) (s : HState) :
    (∀ t, s.token = some t → env.now < t.exipres_at →
      getToken env s = (t.access_token, s, [])) ∧
    ((s.token = none ∨ ∃ t, s.token = some t ∧ t.exipres_at < env.now) →
      (getToken env s).2.2 = [NetCall.auth] ∧
      (getToken env s).1 = (authenticate env).1.access_token ∧
      (getToken env s).2.1.token = some (authenticate env).1) := by
  constructor
  · intro t ht hfut
    simp only [getToken, ht]
    rw [if_neg (by omega)]
  · intro h
    rcases h with hnone | ⟨t, ht, hexp⟩
    · simp [getToken, hnone, authenticate]
    · simp only [getToken, ht]
      rw [if_pos hexp]
      simp [authenticate]

/-- Witness for `getToken_cache_spec`: a token expiring at instant 100
observed at instant 50 is served from the cache; an empty cache at
instant 50 triggers one authentication call. -/
theorem getToken_cache_spec_witness :
    getToken ⟨50, ⟨"fresh", 60, 0⟩, []⟩ ⟨some ⟨"cached", 60, 100⟩, none⟩ =
      ("cached", ⟨some ⟨"cached", 60, 100⟩, none⟩, []) ∧
    (getToken ⟨50, ⟨"fresh", 60, 0⟩, []⟩ ⟨none, none⟩).2.2 = [NetCall.auth] := by
  refine ⟨(getToken_cache_spec ⟨50, ⟨"fresh", 60, 0⟩, []⟩ _).1 ⟨"cached", 60, 100⟩ rfl (by decide), ?_⟩
  exact ((getToken_cache_spec ⟨50, ⟨"fresh", 60, 0⟩, []⟩ ⟨none, none⟩).2 (Or.inl rfl)).1

/-- The network calls `getToken` makes: none (cache hit) or a single
authentication call. -/
lemma getToken_calls (env : Env) (s : HState) :
    (getToken env s).2.2 = [] ∨ (getToken env s).2.2 = [NetCall.auth] := by
  unfold getToken
  cases s.token with
  | none => right; rfl
  | some t =>
    by_cases h : t.exipres_at < env.now <;> simp [h, authenticate]

/-- Characterisation of the rows `toDeployment` keeps. -/
lemma toDeployment_eq_some (raw : RawDeployment) (dep : Deployment) :
    toDeployment raw = some dep ↔
      ∃ m n v, raw.model = some m ∧ m.name = some n ∧ m.version = some v ∧
        n ≠ "" ∧ v ≠ "" ∧ dep = ⟨raw.id, n ++ ":" ++ v⟩ := by
  obtain ⟨i, ts, mo⟩ := raw
  cases mo with
  | none => simp [toDeployment]
  | some m =>
    obtain ⟨mn, mv⟩ := m
    cases mn with
    | none => simp [toDeployment]
    | some n =>
      cases mv with
      | none => simp [toDeployment]
      | some v =>
        by_cases hn : n = "" <;> by_cases hv : v = "" <;>
          simp [toDeployment, hn, hv, eq_comm]

/-- C4: with a configured (non-empty) client secret, the deployment list
produced from a listing response contains exactly the entries whose
`targetStatus` is `"RUNNING"` and whose backend model details carry a
(truthy, per JavaScript) name and version, each surviving entry labelled
`name:version`. -/
theorem getAiCoreDeployments_filter_spec (env : Env) (opts : Options) (s : HState)
    (hsec : opts.sapAiCoreClientSecret ≠ some "") (dep : Deployment) :
    dep ∈ (getAiCoreDeployments env opts s).1 ↔
      ∃ raw ∈ env.listing, raw.targetStatus = "RUNNING" ∧
        ∃ m n v, raw.model = some m ∧ m.name = some n ∧ m.version = some v ∧
          n ≠ "" ∧ v ≠ "" ∧ dep = ⟨raw.id, n ++ ":" ++ v⟩ := by
  simp only [getAiCoreDeployments, if_neg hsec]
  simp only [resolveDeployments, List.mem_filterMap, List.mem_filter,
    toDeployment_eq_some, beq_iff_eq]
  constructor
  · rintro ⟨raw, ⟨hmem, hrun⟩, h⟩
    exact ⟨raw, hmem, hrun, h⟩
  · rintro ⟨raw, hmem, hrun, h⟩
    exact ⟨raw, ⟨hmem, hrun⟩, h⟩

/-- Witness for `getAiCoreDeployments_filter_spec` at a one-row listing:
the running, well-formed row survives with label `n:1`. -/
theorem getAiCoreDeployments_filter_spec_witness :
    (⟨"d1", "n:1"⟩ : Deployment) ∈
      (getAiCoreDeployments
        ⟨0, ⟨"t", 60, 0⟩, [⟨"d1", "RUNNING", some ⟨some "n", some "1"⟩⟩]⟩
        ⟨none, some "sek", none, none, none, none⟩ ⟨none, none⟩).1 :=
  (getAiCoreDeployments_filter_spec
      ⟨0, ⟨"t", 60, 0⟩, [⟨"d1", "RUNNING", some ⟨some "n", some "1"⟩⟩]⟩
      ⟨none, some "sek", none, none, none, none⟩ ⟨none, none⟩
      (by decide) ⟨"d1", "n:1"⟩).mpr
    ⟨⟨"d1", "RUNNING", some ⟨some "n", some "1"⟩⟩, by simp, rfl,
      ⟨some "n", some "1"⟩, "n", "1", rfl, rfl, rfl, by decide, by decide, rfl⟩

/-- C9: with an empty-string client secret, `getAiCoreDeployments` returns
only the `notconfigured` sentinel and issues no network call at all;
consequently, starting from a fresh deployment cache, resolving any model
whose (lower-cased) base name differs from `ai-core-not-configured` fails
with the "no running deployment" error, still without any network call. -/
theorem notConfigured_spec (env : Env) (opts : Options) (s : HState) (modelId : String)
    (hsec : opts.sapAiCoreClientSecret = some "") :
    getAiCoreDeployments env opts s =
      ([{ id := "notconfigured", name := "ai-core-not-configured" }], s, []) ∧
    (s.deployments = none →
      jsToLower (baseName modelId) ≠ "ai-core-not-configured" →
      getDeploymentForModel env opts s modelId =
        (Except.error ("No running deployment found for model " ++ modelId),
         { s with
             deployments :=
               some [{ id := "notconfigured", name := "ai-core-not-configured" }] },
         [])) := by
  have h1 : getAiCoreDeployments env opts s =
      ([{ id := "notconfigured", name := "ai-core-not-configured" }], s, []) := by
    simp [getAiCoreDeployments, hsec]
  refine ⟨h1, fun hdep hbase => ?_⟩
  have hm : matchesModel { id := "notconfigured", name := "ai-core-not-configured" } modelId
      = false := by
    unfold matchesModel
    have hself : jsToLower (baseName "ai-core-not-configured") = "ai-core-not-configured" := by
      decide
    rw [hself]
    exact beq_eq_false_iff_ne.mpr (Ne.symm hbase)
  simp [getDeploymentForModel, hdep, h1, List.find?, hm]

/-- Witness for `notConfigured_spec` with an unconfigured handler asked
for `gpt-4o`. -/
theorem notConfigured_spec_witness :
    getAiCoreDeployments ⟨7, ⟨"t", 60, 0⟩, []⟩
        ⟨none, some "", none, none, none, none⟩ ⟨none, none⟩ =
      ([{ id := "notconfigured", name := "ai-core-not-configured" }], ⟨none, none⟩, []) ∧
    (getDeploymentForModel ⟨7, ⟨"t", 60, 0⟩, []⟩
        ⟨none, some "", none, none, none, none⟩ ⟨none, none⟩ "gpt-4o").1 =
      Except.error "No running deployment found for model gpt-4o" := by
  have h := notConfigured_spec ⟨7, ⟨"t", 60, 0⟩, []⟩
    ⟨none, some "", none, none, none, none⟩ ⟨none, none⟩ "gpt-4o" rfl
  exact ⟨h.1, by rw [h.2 rfl (by decide)]; rfl⟩

/-- C3: requesting `claude-3-5-sonnet:20241022` against a listing holding
a running `claude-3-5-sonnet` (version `v1`) deployment resolves to that
deployment's id; and when neither the cached list nor the refreshed list
has a matching entry, resolution fails with the "no running deployment"
error naming the model after exactly one deployment-listing refresh. -/
theorem getDeploymentForModel_match_spec :
    (getDeploymentForModel
        ⟨0, ⟨"t", 60, 0⟩, [⟨"d1", "RUNNING", some ⟨some "claude-3-5-sonnet", some "v1"⟩⟩]⟩
        ⟨some "cid", some "sek", some "turl", some "burl", none, none⟩
        ⟨none, none⟩ "claude-3-5-sonnet:20241022").1 = Except.ok ("d1" : String) ∧
    ∀ (env : Env) (opts : Options) (s : HState) (l : List Deployment) (modelId : String),
      opts.sapAiCoreClientSecret ≠ some "" →
      s.deployments = some l →
      (∀ d ∈ l, matchesModel d modelId = false) →
      (∀ d ∈ resolveDeployments env.listing, matchesModel d modelId = false) →
      (getDeploymentForModel env opts s modelId).1 =
        Except.error ("No running deployment found for model " ++ modelId) ∧
      (getDeploymentForModel env opts s modelId).2.2.count NetCall.listDeployments = 1 := by
  constructor
  · rfl
  · intro env opts s l modelId hsec hs hl hfresh
    have hhas : hasDeploymentForModel s modelId = false := by
      simp only [hasDeploymentForModel, hs, List.any_eq_false]
      intro d hd
      simp [hl d hd]
    have hfind : (resolveDeployments env.listing).find?
        (fun d => matchesModel d modelId) = none :=
      List.find?_eq_none.mpr (fun d hd => by simp [hfresh d hd])
    have hget : getAiCoreDeployments env opts s =
        (resolveDeployments env.listing, (getToken env s).2.1,
         (getToken env s).2.2 ++ [NetCall.listDeployments]) := by
      simp [getAiCoreDeployments, if_neg hsec]
    simp only [getDeploymentForModel, hs, Option.isNone_some, hhas, Bool.not_false,
      Bool.or_true, if_true, hget, Option.getD_some, hfind]
    refine ⟨by simp, ?_⟩
    rcases getToken_calls env s with hc | hc <;>
      simp [hc, List.count_append, List.count_cons, List.count_nil]

/-- Witness for the unmatched branch of `getDeploymentForModel_match_spec`:
an empty cached list, an empty listing, one refresh, then the error. -/
theorem getDeploymentForModel_match_spec_witness :
    (getDeploymentForModel ⟨0, ⟨"t", 60, 0⟩, []⟩
        ⟨none, some "sek", none, none, none, none⟩ ⟨none, some []⟩ "m").1 =
      Except.error "No running deployment found for model m" ∧
    (getDeploymentForModel ⟨0, ⟨"t", 60, 0⟩, []⟩
        ⟨none, some "sek", none, none, none, none⟩
        ⟨none, some []⟩ "m").2.2.count NetCall.listDeployments = 1 :=
  getDeploymentForModel_match_spec.2 ⟨0, ⟨"t", 60, 0⟩, []⟩
    ⟨none, some "sek", none, none, none, none⟩ ⟨none, some []⟩ [] "m"
    (by decide) rfl (by simp) (by simp [resolveDeployments])

/-- C10: `getModel` is total; the returned metadata is the registry row of
the returned id; provided the default id is a registry key, the returned
id always has metadata (so `createMessage` always proceeds with a
registry-known id), and an unset or registry-unknown `apiModelId`
silently falls back to the default model. -/
theorem getModel_total_spec (reg : ModelRegistry) (opts : Options)
    (hdef : (lookupModel reg.sapAiCoreModels reg.sapAiCoreDefaultModelId).isSome = true) :
    (getModel reg opts).2 = lookupModel reg.sapAiCoreModels (getModel reg opts).1 ∧
    (getModel reg opts).2.isSome = true ∧
    ((opts.apiModelId = none ∨
        ∃ m, opts.apiModelId = some m ∧ lookupModel reg.sapAiCoreModels m = none) →
      getModel reg opts =
        (reg.sapAiCoreDefaultModelId,
         lookupModel reg.sapAiCoreModels reg.sapAiCoreDefaultModelId)) := by
  rcases hid : opts.apiModelId with _ | m
  · simp [getModel, hid, hdef]
  · by_cases hm : m = ""
    · subst hm
      simp [getModel, hid, hdef]
    · rcases hlook : lookupModel reg.sapAiCoreModels m with _ | info
      · simp [getModel, hid, hm, hlook, hdef]
      · simp [getModel, hid, hm, hlook]

/-- Witness for `getModel_total_spec`: a one-row registry and an unknown
requested id fall back to the default row. -/
theorem getModel_total_spec_witness :
    getModel ⟨[("anthropic--claude-3.5-sonnet", ⟨8192⟩)], "anthropic--claude-3.5-sonnet"⟩
        ⟨none, none, none, none, none, some "unknown-model"⟩ =
      ("anthropic--claude-3.5-sonnet",
       lookupModel [("anthropic--claude-3.5-sonnet", ⟨8192⟩)] "anthropic--claude-3.5-sonnet") :=
  (getModel_total_spec
      ⟨[("anthropic--claude-3.5-sonnet", ⟨8192⟩)], "anthropic--claude-3.5-sonnet"⟩
      ⟨none, none, none, none, none, some "unknown-model"⟩ (by decide)).2.2
    (Or.inr ⟨"unknown-model", rfl, by decide⟩)

/-- The network calls `getDeploymentForModel` makes are at most one
authentication and one deployment listing — never an inference call. -/
lemma getDeploymentForModel_calls (env : Env) (opts : Options) (s : HState) (modelId : String) :
    ∀ c ∈ (getDeploymentForModel env opts s modelId).2.2,
      c = NetCall.auth ∨ c = NetCall.listDeployments := by
  intro c hc
  unfold getDeploymentForModel at hc
  split at hc
  · unfold getAiCoreDeployments at hc
    split at hc
    · simp at hc
    · rcases List.mem_append.mp hc with h | h
      · rcases getToken_calls env s with ht | ht <;> rw [ht] at h <;> simp at h
        exact Or.inl h
      · right
        simpa using h
  · simp at hc

/-- C1 counterexample: with no cached token, `createMessage` on the
family-less model id `custom-model` does fail with the "unsupported
model" error — but an authentication call and a deployment-listing call
precede the error, contradicting "before any network call is made". -/
theorem createMessage_unsupported_counterexample :
    (createMessage c1Env c1Opts c1Reg ⟨none, none⟩).1 =
      Except.error "Unsupported model: custom-model" ∧
    (createMessage c1Env c1Opts c1Reg ⟨none, none⟩).2.2 =
      [NetCall.auth, NetCall.listDeployments] := by
  constructor <;> rfl

/-- C1 as amended: for a resolved model id in neither hardcoded family
list, `createMessage` fails — with the "unsupported model" error whenever
deployment resolution succeeded — and never reaches the inference call;
authentication and deployment-listing calls may, however, precede the
error. -/
theorem createMessage_unsupported_no_inference (env : Env) (opts : Options)
    (reg : ModelRegistry) (s : HState)
    (ha : anthropicModels.contains (getModel reg opts).1 = false)
    (ho : openAIModels.contains (getModel reg opts).1 = false) :
    (∃ e, (createMessage env opts reg s).1 = Except.error e) ∧
    (∀ depId,
      (getDeploymentForModel env opts (getToken env s).2.1 (getModel reg opts).1).1 =
        Except.ok depId →
      (createMessage env opts reg s).1 =
        Except.error ("Unsupported model: " ++ (getModel reg opts).1)) ∧
    (∀ dep, NetCall.inference dep ∉ (createMessage env opts reg s).2.2) := by
  have ha' : (getModel reg opts).1 ∉ anthropicModels := by simpa using ha
  have ho' : (getModel reg opts).1 ∉ openAIModels := by simpa using ho
  have htrace : ∀ c ∈ (getToken env s).2.2 ++
      (getDeploymentForModel env opts (getToken env s).2.1 (getModel reg opts).1).2.2,
      c = NetCall.auth ∨ c = NetCall.listDeployments := by
    intro c hc
    rcases List.mem_append.mp hc with h | h
    · rcases getToken_calls env s with ht | ht <;> rw [ht] at h <;> simp at h
      exact Or.inl h
    · exact getDeploymentForModel_calls env opts _ _ c h
  cases hd : (getDeploymentForModel env opts (getToken env s).2.1 (getModel reg opts).1).1 with
  | error e =>
    refine ⟨⟨e, by simp [createMessage, hd]⟩, ?_, ?_⟩
    · intro depId hok
      exact absurd hok (by simp)
    · intro dep hmem
      have heq : (createMessage env opts reg s).2.2 =
          (getToken env s).2.2 ++
          (getDeploymentForModel env opts (getToken env s).2.1 (getModel reg opts).1).2.2 := by
        simp [createMessage, hd]
      rw [heq] at hmem
      rcases htrace _ hmem with h | h <;> simp at h
  | ok depId =>
    refine ⟨⟨"Unsupported model: " ++ (getModel reg opts).1, by simp [createMessage, hd, ha', ho']⟩,
      fun _ _ => by simp [createMessage, hd, ha', ho'], ?_⟩
    intro dep hmem
    have heq : (createMessage env opts reg s).2.2 =
        (getToken env s).2.2 ++
        (getDeploymentForModel env opts (getToken env s).2.1 (getModel reg opts).1).2.2 := by
      simp [createMessage, hd, ha', ho']
    rw [heq] at hmem
    rcases htrace _ hmem with h | h <;> simp at h

/-- Witness for `createMessage_unsupported_no_inference` on the
`custom-model` run. -/
theorem createMessage_unsupported_witness :
    (∃ e, (createMessage c1Env c1Opts c1Reg ⟨none, none⟩).1 = Except.error e) ∧
    NetCall.inference "d1" ∉ (createMessage c1Env c1Opts c1Reg ⟨none, none⟩).2.2 := by
  have h := createMessage_unsupported_no_inference c1Env c1Opts c1Reg ⟨none, none⟩
    (by decide) (by decide)
  exact ⟨h.1, h.2.2 "d1"⟩

/-- C5: the frame sequence `message_start{input_tokens:10}`,
`content_block_delta{text:"hi"}`, `message_delta{usage:{output_tokens:3}}`
yields exactly `usage(10,0)`, `text("hi")`, `usage(0,3)`, in that order. -/
theorem streamCompletion_example :
    streamCompletion demoParseA ["data: ms\ndata: cbd\ndata: md"] =
      [StreamEvent.usage 10 0, StreamEvent.text "hi", StreamEvent.usage 0 3] := by
  decide

/-- Unfolding lemma for the GPT line loop. -/
lemma processGPT_cons (parse : String → Option GFrame) (st : GState)
    (line : String) (rest : List String) :
    processGPT parse st (line :: rest) =
      if jsTrim line = "data: [DONE]" then
        [StreamEvent.usage st.inputTokens st.outputTokens]
      else
        (stepLineGPT parse st line).2 ++
          processGPT parse (stepLineGPT parse st line).1 rest := rfl

/-- Unfolding lemma for `linesOf` on a leading chunk. -/
lemma linesOf_cons (chunk : String) (chunks : List String) :
    linesOf (chunk :: chunks) =
      (((splitOnChar '\n' chunk.data).map String.mk).filter (fun l => l ≠ "")) ++
        linesOf chunks := by
  simp [linesOf]

/-- C6: a frame with first-choice delta content `"hi"` followed by the
literal `data: [DONE]` line yields `text("hi")` and then exactly one
final usage event with the last-known totals (zero here, as none were
reported); the parser then terminates and emits nothing for any further
chunks. -/
theorem streamCompletionGPT_done_example (rest : List String) :
    streamCompletionGPT demoParseGPT (["data: g1", "data: [DONE]"] ++ rest) =
      [StreamEvent.text "hi", StreamEvent.usage 0 0] := by
  show processGPT demoParseGPT ⟨0, 0⟩
      (linesOf ("data: g1" :: "data: [DONE]" :: rest)) = _
  rw [linesOf_cons, linesOf_cons]
  rw [show (((splitOnChar '\n' ("data: g1").data).map String.mk).filter
        (fun l => l ≠ "")) = ["data: g1"] from by decide]
  rw [show (((splitOnChar '\n' ("data: [DONE]").data).map String.mk).filter
        (fun l => l ≠ "")) = ["data: [DONE]"] from by decide]
  rw [List.singleton_append, List.singleton_append]
  rw [processGPT_cons, if_neg (by decide)]
  rw [show stepLineGPT demoParseGPT ⟨0, 0⟩ "data: g1" =
        (⟨0, 0⟩, [StreamEvent.text "hi"]) from by decide]
  rw [processGPT_cons, if_pos (by decide)]
  rfl

/-- Unfolding lemma for the Anthropic line loop. -/
lemma processA_cons (parse : String → Option AFrame) (st : AState)
    (line : String) (rest : List String) :
    processA parse st (line :: rest) =
      (stepLineA parse st line).2 ++ processA parse (stepLineA parse st line).1 rest := rfl

/-- C7 counterexample: the line `data: [DONE]` is `data: `-prefixed and
its remainder `[DONE]` is not valid JSON, yet in the OpenAI-format parser
it emits a usage event and terminates the stream — the event lists with
and without it differ (`[text "hi", usage 0 0]` versus
`[text "hi", text "yo"]`), so it is not behaviourally absent. -/
theorem malformed_line_counterexample :
    isDataLine "data: [DONE]" = true ∧
    demoParseGPT (dataPayload "data: [DONE]") = none ∧
    streamCompletionGPT demoParseGPT ["data: g1", "data: [DONE]", "data: g2"] ≠
      streamCompletionGPT demoParseGPT ["data: g1", "data: g2"] := by
  decide

/-- C7 as amended: in both parsers, from any state and between any
surrounding lines, a `data: `-prefixed line whose remainder fails to
parse produces no event and leaves the remaining events unchanged —
except that in the OpenAI-format parser the line must additionally not
trim to the `data: [DONE]` sentinel, which (though its remainder is not
valid JSON) emits a final usage event and ends the stream. -/
theorem malformed_line_ignored
    (parseA : String → Option AFrame) (parseG : String → Option GFrame)
    (stA : AState) (stG : GState) (bad : String) (pre post : List String)
    (hdata : isDataLine bad = true)
    (hA : parseA (dataPayload bad) = none)
    (hG : parseG (dataPayload bad) = none) :
    processA parseA stA (pre ++ bad :: post) = processA parseA stA (pre ++ post) ∧
    (jsTrim bad ≠ "data: [DONE]" →
      processGPT parseG stG (pre ++ bad :: post) = processGPT parseG stG (pre ++ post)) := by
  constructor
  · induction pre generalizing stA with
    | nil =>
      rw [List.nil_append, List.nil_append, processA_cons]
      simp [stepLineA, hdata, hA]
    | cons a as ih =>
      rw [List.cons_append, List.cons_append, processA_cons, processA_cons]
      rw [ih]
  · intro hne
    induction pre generalizing stG with
    | nil =>
      rw [List.nil_append, List.nil_append, processGPT_cons, if_neg hne]
      simp [stepLineGPT, hdata, hG]
    | cons a as ih =>
      rw [List.cons_append, List.cons_append, processGPT_cons, processGPT_cons]
      by_cases ha : jsTrim a = "data: [DONE]"
      · rw [if_pos ha, if_pos ha]
      · rw [if_neg ha, if_neg ha, ih]

/-- Witness for `malformed_line_ignored`: the unparsable line
`data: junk` between two valid frames changes nothing in either
parser. -/
theorem malformed_line_ignored_witness :
    processA demoParseA ⟨0, 0⟩ (["data: ms"] ++ "data: junk" :: ["data: md"]) =
      processA demoParseA ⟨0, 0⟩ (["data: ms"] ++ ["data: md"]) ∧
    processGPT demoParseGPT ⟨0, 0⟩ (["data: ms"] ++ "data: junk" :: ["data: md"]) =
      processGPT demoParseGPT ⟨0, 0⟩ (["data: ms"] ++ ["data: md"]) := by
  have h := malformed_line_ignored demoParseA demoParseGPT ⟨0, 0⟩ ⟨0, 0⟩ "data: junk"
    ["data: ms"] ["data: md"] (by decide) (by decide) (by decide)
  exact ⟨h.1, h.2 (by decide)⟩

/-- C8: per frame, the OpenAI-format parser emits a text event exactly
when the first choice's delta content is non-empty; it emits a usage
event whenever the frame carries a usage object, each absent field
defaulting to the previously seen total; and a frame whose first choice
reports `finish_reason = "stop"` without a usage object gets one
additional usage event carrying the last-known totals. -/
theorem stepGPT_frame_spec (st : GState) (f : GFrame) :
    ((∃ str, StreamEvent.text str ∈ (stepGPT st f).2) ↔
      (∃ c cs str, f.choices = c :: cs ∧ c.content = some str ∧ str ≠ "")) ∧
    (∀ u, f.usage = some u →
      ∃ i o, StreamEvent.usage i o ∈ (stepGPT st f).2 ∧
        (u.prompt_tokens = none → i = st.inputTokens) ∧
        (u.completion_tokens = none → o = st.outputTokens)) ∧
    (f.usage = none →
      ∀ c cs, f.choices = c :: cs → c.finish_reason = some "stop" →
        StreamEvent.usage st.inputTokens st.outputTokens ∈ (stepGPT st f).2) := by
  obtain ⟨choices, usage⟩ := f
  refine ⟨?_, ?_, ?_⟩
  · cases usage with
    | some u =>
      cases choices with
      | nil => simp [stepGPT]
      | cons c cs =>
        rcases hcon : c.content with _ | str
        · simp [stepGPT, hcon]
        · by_cases hstr : str = "" <;> simp [stepGPT, hcon, hstr]
    | none =>
      cases choices with
      | nil => simp [stepGPT]
      | cons c cs =>
        rcases hcon : c.content with _ | str
        · by_cases hfin : c.finish_reason = some "stop" <;> simp [stepGPT, hcon, hfin]
        · by_cases hstr : str = "" <;> by_cases hfin : c.finish_reason = some "stop" <;>
            simp [stepGPT, hcon, hstr, hfin]
  · intro u hu
    subst hu
    refine ⟨jsOrTok u.prompt_tokens st.inputTokens, jsOrTok u.completion_tokens st.outputTokens,
      ?_, fun hp => ?_, fun hc => ?_⟩
    · simp [stepGPT]
    · simp [jsOrTok, hp]
    · simp [jsOrTok, hc]
  · intro hu c cs hch hfin
    subst hu
    subst hch
    simp [stepGPT, hfin]

/-- Witness for `stepGPT_frame_spec`: a frame with content "x", finish
reason "stop" and an empty usage object emits a text and a usage
event. -/
theorem stepGPT_frame_spec_witness :
    (∃ str, StreamEvent.text str ∈
      (stepGPT ⟨5, 7⟩ ⟨[⟨some "x", some "stop"⟩], some ⟨none, none⟩⟩).2) ∧
    (∃ i o, StreamEvent.usage i o ∈
      (stepGPT ⟨5, 7⟩ ⟨[⟨some "x", some "stop"⟩], some ⟨none, none⟩⟩).2) := by
  have h := stepGPT_frame_spec ⟨5, 7⟩ ⟨[⟨some "x", some "stop"⟩], some ⟨none, none⟩⟩
  refine ⟨h.1.mpr ⟨⟨some "x", some "stop"⟩, [], "x", rfl, rfl, by decide⟩, ?_⟩
  obtain ⟨i, o, hm, _, _⟩ := h.2.1 ⟨none, none⟩ rfl
  exact ⟨i, o, hm⟩

/-- Witness for `streamCompletionGPT_done_example`: with a further valid
frame after the sentinel, nothing beyond the final usage event is
emitted. -/
theorem streamCompletionGPT_done_example_witness :
    streamCompletionGPT demoParseGPT (["data: g1", "data: [DONE]"] ++ ["data: g2"]) =
      [StreamEvent.text "hi", StreamEvent.usage 0 0] :=
  streamCompletionGPT_done_example ["data: g2"]

end SapAiCore
